import Mathlib

/-!
Shallow embedding of `src/pdf2ppt/watermark.py` (function `remove_watermark`)
from the notebookLM2PPT repository.

The module removes the NotebookLM watermark from every page of a PDF by
sampling a thin strip of background colours just above a fixed bottom-right
rectangle and painting that rectangle column by column with the sampled
colours.

Modelling choices:
* Page coordinates are rationals (the Python code uses floats; all the
  geometry here is exact arithmetic on the page width/height).
* The external rendering library (PyMuPDF + PIL) is abstracted: each page
  carries a `render` field, a function from a clip rectangle and a scale
  matrix to an optional image (`none` models a rasterization failure /
  raised exception).  Pixel channels are `Fin 256` (byte values).
* Page mutation by `draw_rect` is modelled by collecting the list of draw
  commands issued for the page; an output page keeps the input page's
  width and height (the code never touches `page.rect`) plus that list.
* File-system effects of `remove_watermark` (opening the input, saving the
  output, closing the document handle) are modelled as an explicit trace of
  `FSOp` events returned next to the result; `fitz.open` is modelled by an
  environment `fs : String → Option Document` (`none` = open raises).
-/

/-- An axis-aligned rectangle `(x0, y0, x1, y1)` in page coordinate space,
mirroring `fitz.Rect`. -/
structure Rect where
  x0 : ℚ
  y0 : ℚ
  x1 : ℚ
  y1 : ℚ
  deriving DecidableEq, Repr

/-- A rasterized image as produced by `page.get_pixmap` + `PIL.Image.open`:
a width, a height, and a pixel accessor returning the list of channel
values (bytes) at a given column and row. -/
structure Image where
  width : Nat
  height : Nat
  pixel : Nat → Nat → List (Fin 256)

/-- A page of the input document: its width and height in page units, and
the external library's rasterizer (`get_pixmap` with a clip rectangle and a
diagonal scale matrix `(sx, sy)`); `none` models a rasterization error. -/
structure Page where
  width : ℚ
  height : ℚ
  render : Rect → ℚ × ℚ → Option Image

/-- A document is the ordered sequence of its pages (`fitz` document). -/
structure Document where
  pages : List Page

/-- One `page.draw_rect(col_rect, color=(r,g,b), fill=(r,g,b))` call:
the rectangle, the outline colour and the fill colour (RGB channels
normalized to `[0,1]`, hence rationals). -/
structure DrawCmd where
  rect : Rect
  color : List ℚ
  fill : List ℚ
  deriving DecidableEq, Repr

/-- An output page: the (unchanged) page geometry together with the draw
commands painted onto it. -/
structure OutPage where
  width : ℚ
  height : ℚ
  drawn : List DrawCmd
  deriving DecidableEq, Repr

/-- `wm_x1 = rect.width - 115` -/
def wm_x1 (p : Page) : ℚ := p.width - 115

/-- `wm_y1 = rect.height - 30` -/
def wm_y1 (p : Page) : ℚ := p.height - 30

/-- `wm_x2 = rect.width - 5` -/
def wm_x2 (p : Page) : ℚ := p.width - 5

/-- `wm_y2 = rect.height - 5` -/
def wm_y2 (p : Page) : ℚ := p.height - 5

/-- The watermark rectangle `(wm_x1, wm_y1, wm_x2, wm_y2)`. -/
def wmRect (p : Page) : Rect := ⟨wm_x1 p, wm_y1 p, wm_x2 p, wm_y2 p⟩

/-- `sample_rect = fitz.Rect(wm_x1, wm_y1 - 10, wm_x2, wm_y1 - 2)` -/
def sample_rect (p : Page) : Rect :=
  ⟨wm_x1 p, wm_y1 p - 10, wm_x2 p, wm_y1 p - 2⟩

/-- `(c / 255 for c in pixels[x, img.height // 2][:3])`: the colour sampled
for column `x` — the first three channels of the pixel at column `x` and
row `img.height // 2`, each divided by 255. -/
def sampleColor (img : Image) (x : Nat) : List ℚ :=
  ((img.pixel x (img.height / 2)).take 3).map (fun c => (c.val : ℚ) / 255)

/-- `col_width = (wm_x2 - wm_x1) / img.width` -/
def col_width (p : Page) (n : Nat) : ℚ := (wm_x2 p - wm_x1 p) / n

/-- The rectangle drawn for column `x` out of `n`:
`fitz.Rect(wm_x1 + x*col_width, wm_y1, wm_x1 + (x+1)*col_width, wm_y2)`. -/
def col_rect (p : Page) (n x : Nat) : Rect :=
  ⟨wm_x1 p + x * col_width p n, wm_y1 p,
   wm_x1 p + (x + 1) * col_width p n, wm_y2 p⟩

/-- The draw command issued for column `x` out of `n` columns: the column
rectangle, with the sampled colour as both outline and fill. -/
def colCmd (p : Page) (img : Image) (x : Nat) : DrawCmd :=
  ⟨col_rect p img.width x, sampleColor img x, sampleColor img x⟩

/-- The per-page body of the loop in `remove_watermark`, with the scale
matrix of the `get_pixmap` call left as a parameter `(sx, sy)`: rasterize
the sampling strip, then draw one rectangle per rasterized column.
`none` propagates a rasterization failure. -/
def process_page_at (sx sy : ℚ) (p : Page) : Option OutPage :=
  match p.render (sample_rect p) (sx, sy) with
  | none => none
  | some img =>
      some ⟨p.width, p.height, (List.range img.width).map (colCmd p img)⟩

/-- The per-page body of the loop in `remove_watermark`: the code fixes the
scale matrix to `fitz.Matrix(2, 2)`. -/
def process_page : Page → Option OutPage := process_page_at 2 2

/-- The page loop of `remove_watermark`: process pages in order, counting
`pages_processed`; the first failure aborts the whole run (the Python
exception propagates). -/
def process_pages : List Page → Option (List OutPage × Nat)
  | [] => some ([], 0)
  | p :: ps =>
      match process_page p with
      | none => none
      | some op =>
          match process_pages ps with
          | none => none
          | some (ops, n) => some (op :: ops, n + 1)

/-- The value returned by `remove_watermark` on success, together with the
output document's pages as saved to `output_path`. -/
structure RunResult where
  pages_processed : Nat
  outPages : List OutPage

/-- A file-system event performed by `remove_watermark`: opening/reading a
path (`fitz.open`), writing a path (`doc.save`), or closing the source
document handle (`doc.close`). -/
inductive FSOp where
  | read (path : String)
  | write (path : String)
  | close
  deriving DecidableEq, Repr

/-- `remove_watermark(input_path, output_path)` over a file-system
environment `fs` (what `fitz.open` yields at each path; `none` = the open
raises).  Returns the result (`none` = an exception propagated to the
caller) and the trace of file-system events, in order:
the code opens the input, processes every page in memory, and only then
saves to `output_path` and closes the handle; on any failure it returns
before reaching `doc.save` and `doc.close`. -/
def remove_watermark (fs : String → Option Document)
    (input_path output_path : String) : Option RunResult × List FSOp :=
  match fs input_path with
  | none => (none, [FSOp.read input_path])
  | some doc =>
      match process_pages doc.pages with
      | none => (none, [FSOp.read input_path])
      | some (ops, n) =>
          (some ⟨n, ops⟩,
           [FSOp.read input_path, FSOp.write output_path, FSOp.close])

/-! ### Concrete fixtures (test documents used to instantiate theorems) -/

/-- A small constant 2×4 image (RGBA channels `(230, 229, 242, 255)`). -/
def constImg : Image := ⟨2, 4, fun _ _ => [230, 229, 242, 255]⟩

/-- A 612×792 (US Letter) page whose rasterizer always yields `constImg`. -/
def testPage : Page := ⟨612, 792, fun _ _ => some constImg⟩

/-- A two-page test document. -/
def testDoc : Document := ⟨[testPage, testPage]⟩

/-- A file system where every path opens to `testDoc`. -/
def testFS : String → Option Document := fun _ => some testDoc

/-- The output page produced for `testPage`. -/
def testOut : OutPage :=
  ⟨612, 792, (List.range constImg.width).map (colCmd testPage constImg)⟩

/-- The run result produced for `testDoc`. -/
def testRun : RunResult := ⟨2, [testOut, testOut]⟩

/-- A constant 220×16 gray image (the rasterized strip of a narrow page). -/
def narrowImg : Image := ⟨220, 16, fun _ _ => [128, 128, 128, 255]⟩

/-- A page narrower than 115 units whose rasterizer yields `narrowImg`. -/
def narrowPage : Page := ⟨100, 792, fun _ _ => some narrowImg⟩

/-- A page whose rasterizer fails (models a raised rasterization error). -/
def failPage : Page := ⟨612, 792, fun _ _ => none⟩

/-- A file system where every path opens to a one-page document whose only
page fails to rasterize. -/
def failFS : String → Option Document := fun _ => some ⟨[failPage]⟩

/-- A file system where every open fails (nonexistent / invalid input). -/
def emptyFS : String → Option Document := fun _ => none

/-! ### Helper lemmas -/

/-- `process_page` never changes a page's width or height. -/
theorem process_page_dims (p : Page) (op : OutPage)
    (h : process_page p = some op) :
    op.width = p.width ∧ op.height = p.height := by
  unfold process_page process_page_at at h
  cases hr : p.render (sample_rect p) (2, 2) with
  | none => rw [hr] at h; cases h
  | some img =>
      rw [hr] at h
      injection h with h
      subst h
      exact ⟨rfl, rfl⟩

/-- On success, `process_pages` returns one output page per input page, in
order, with unchanged widths and heights, and counts exactly the number of
pages. -/
theorem process_pages_spec (ps : List Page) :
    ∀ (ops : List OutPage) (n : Nat), process_pages ps = some (ops, n) →
      n = ps.length ∧ ops.length = ps.length ∧
      ∀ j : Nat,
        (ops[j]?).map OutPage.width = (ps[j]?).map Page.width ∧
        (ops[j]?).map OutPage.height = (ps[j]?).map Page.height := by
  induction ps with
  | nil =>
      intro ops n h
      simp only [process_pages, Option.some.injEq, Prod.mk.injEq] at h
      obtain ⟨h1, h2⟩ := h
      subst h1
      subst h2
      exact ⟨rfl, rfl, fun j => ⟨rfl, rfl⟩⟩
  | cons p ps ih =>
      intro ops n h
      rw [process_pages] at h
      cases hp : process_page p with
      | none => rw [hp] at h; cases h
      | some op =>
          rw [hp] at h
          cases hps : process_pages ps with
          | none => rw [hps] at h; cases h
          | some pr =>
              obtain ⟨ops', n'⟩ := pr
              rw [hps] at h
              injection h with h
              obtain ⟨rfl, rfl⟩ : ops = op :: ops' ∧ n = n' + 1 :=
                ⟨(congrArg Prod.fst h).symm, (congrArg Prod.snd h).symm⟩
              obtain ⟨ih1, ih2, ih3⟩ := ih ops' n' hps
              refine ⟨by simp [ih1], by simp [ih2], fun j => ?_⟩
              cases j with
              | zero =>
                  have hd := process_page_dims p op hp
                  simp [hd.1, hd.2]
              | succ j => simpa using ih3 j

/-! ### Claims -/

/-- C1: for every valid input document with `n` pages, `remove_watermark`
returns a result whose `pages_processed` field equals `n`, the output
document has exactly `n` pages, and every output page has the same width
and height as the corresponding input page. -/
theorem C1_page_count_and_dims (fs : String → Option Document)
    (i o : String) (doc : Document) (r : RunResult)
    (hopen : fs i = some doc)
    (hrun : (remove_watermark fs i o).1 = some r) :
    r.pages_processed = doc.pages.length ∧
    r.outPages.length = doc.pages.length ∧
    ∀ j : Nat,
      (r.outPages[j]?).map OutPage.width = (doc.pages[j]?).map Page.width ∧
      (r.outPages[j]?).map OutPage.height = (doc.pages[j]?).map Page.height := by
  unfold remove_watermark at hrun
  simp only [hopen] at hrun
  cases hps : process_pages doc.pages with
  | none => simp only [hps] at hrun; cases hrun
  | some pr =>
      obtain ⟨ops, n⟩ := pr
      simp only [hps, Option.some.injEq] at hrun
      subst hrun
      obtain ⟨h1, h2, h3⟩ := process_pages_spec doc.pages ops n hps
      exact ⟨h1, h2, h3⟩

/-- C1 witness: on the concrete two-page `testDoc`, the run returns
`pages_processed = 2`, an output of 2 pages, and page 0 keeps its width. -/
theorem C1_witness :
    testRun.pages_processed = testDoc.pages.length ∧
    testRun.outPages.length = testDoc.pages.length ∧
    (testRun.outPages[0]?).map OutPage.width =
      (testDoc.pages[0]?).map Page.width := by
  have h := C1_page_count_and_dims testFS "in.pdf" "out.pdf" testDoc testRun
    rfl rfl
  exact ⟨h.1, h.2.1, (h.2.2 0).1⟩

/-- C2: for every page of width `w` and height `h`, the watermark rectangle
is `(w-115, h-30, w-5, h-5)` and the sampling strip has the same horizontal
extent, is 8 units tall, and ends 2 units above the watermark rectangle's
top edge (`y` from `wm_y1 - 10` to `wm_y1 - 2`). -/
theorem C2_geometry (p : Page) :
    wmRect p = ⟨p.width - 115, p.height - 30, p.width - 5, p.height - 5⟩ ∧
    sample_rect p =
      ⟨p.width - 115, (p.height - 30) - 10, p.width - 5, (p.height - 30) - 2⟩ ∧
    (sample_rect p).x0 = (wmRect p).x0 ∧
    (sample_rect p).x1 = (wmRect p).x1 ∧
    (sample_rect p).y1 - (sample_rect p).y0 = 8 ∧
    (wmRect p).y0 - (sample_rect p).y1 = 2 := by
  refine ⟨rfl, rfl, rfl, rfl, ?_, ?_⟩ <;>
    simp only [sample_rect, wmRect, wm_x1, wm_y1, wm_x2, wm_y2] <;> ring

/-- C9: for every page, the watermark rectangle is exactly 110 units wide
and 25 units tall, hence never degenerate; a page narrower than 115 units
makes the rectangle extend left of the page edge (`wm_x1 < 0`); and the
sampling strip is always exactly 110 units wide and 8 units tall. -/
theorem C9_fixed_size (p : Page) :
    wm_x2 p - wm_x1 p = 110 ∧
    wm_y2 p - wm_y1 p = 25 ∧
    0 < wm_x2 p - wm_x1 p ∧
    (p.width < 115 → wm_x1 p < 0) ∧
    (sample_rect p).x1 - (sample_rect p).x0 = 110 ∧
    (sample_rect p).y1 - (sample_rect p).y0 = 8 := by
  have h110 : wm_x2 p - wm_x1 p = 110 := by unfold wm_x1 wm_x2; ring
  refine ⟨h110, by unfold wm_y1 wm_y2; ring, by rw [h110]; norm_num,
    fun h => ?_, by simp only [sample_rect, wm_x1, wm_x2]; ring,
    by simp only [sample_rect]; ring⟩
  unfold wm_x1
  linarith

/-- C9 witness: on the concrete 100-unit-wide `narrowPage` the watermark
rectangle is still 110 wide and extends left of the page edge. -/
theorem C9_witness :
    wm_x2 narrowPage - wm_x1 narrowPage = 110 ∧ wm_x1 narrowPage < 0 :=
  ⟨(C9_fixed_size narrowPage).1,
   (C9_fixed_size narrowPage).2.2.2.1 (show (100 : ℚ) < 115 by norm_num)⟩

/-- C3: for every page, the sampling strip is rasterized at the fixed 2×
scale, and for each rasterized column `x` (column count = rasterized image
width) the sampled colour is the pixel at column `x` and row
`floor(height / 2)`, keeping only the first three channels, each divided
by 255. -/
theorem C3_column_sampling (p : Page) (img : Image)
    (hr : p.render (sample_rect p) (2, 2) = some img) :
    process_page p = process_page_at 2 2 p ∧
    (process_page p).map (fun op => op.drawn.map DrawCmd.fill) =
      some ((List.range img.width).map (fun x =>
        ((img.pixel x (img.height / 2)).take 3).map
          (fun c => (c.val : ℚ) / 255))) := by
  refine ⟨rfl, ?_⟩
  unfold process_page process_page_at
  rw [hr]
  simp [List.map_map, Function.comp, colCmd, sampleColor]

/-- C3 witness: the sampled colours on the concrete `testPage`. -/
theorem C3_witness :
    process_page testPage = process_page_at 2 2 testPage ∧
    (process_page testPage).map (fun op => op.drawn.map DrawCmd.fill) =
      some ((List.range constImg.width).map (fun x =>
        ((constImg.pixel x (constImg.height / 2)).take 3).map
          (fun c => (c.val : ℚ) / 255))) :=
  C3_column_sampling testPage constImg rfl

/-- C4: for every page whose sampling strip rasterizes to `n ≥ 1` columns,
exactly `n` filled rectangles are drawn (no run-length merging); the `x`-th
rectangle spans horizontally from `wm_x1 + x*(wm_x2-wm_x1)/n` to
`wm_x1 + (x+1)*(wm_x2-wm_x1)/n`, vertically from `wm_y1` to `wm_y2`, and
uses the `x`-th sampled colour as both outline and fill. -/
theorem C4_per_column_rects (p : Page) (img : Image) (n : Nat)
    (hr : p.render (sample_rect p) (2, 2) = some img)
    (hn : img.width = n) (hpos : 1 ≤ n) :
    (process_page p).map (fun op => op.drawn.length) = some n ∧
    ∀ x : Nat, x < n →
      (process_page p).bind (fun op => op.drawn[x]?) =
        some ⟨⟨wm_x1 p + (x : ℚ) * ((wm_x2 p - wm_x1 p) / (n : ℚ)), wm_y1 p,
               wm_x1 p + ((x : ℚ) + 1) * ((wm_x2 p - wm_x1 p) / (n : ℚ)),
               wm_y2 p⟩,
              sampleColor img x, sampleColor img x⟩ := by
  subst hn
  unfold process_page process_page_at
  rw [hr]
  refine ⟨by simp, fun x hx => ?_⟩
  simp [List.getElem?_map, List.getElem?_range, hx, colCmd, col_rect,
    col_width, sampleColor]

/-- C4 witness: on the concrete `testPage` (2 rasterized columns), exactly
2 rectangles are drawn and rectangle 1 has the stated geometry and colours. -/
theorem C4_witness :
    (process_page testPage).map (fun op => op.drawn.length) = some 2 ∧
    (process_page testPage).bind (fun op => op.drawn[1]?) =
      some ⟨⟨wm_x1 testPage +
               ((1 : Nat) : ℚ) * ((wm_x2 testPage - wm_x1 testPage) / ((2 : Nat) : ℚ)),
             wm_y1 testPage,
             wm_x1 testPage +
               (((1 : Nat) : ℚ) + 1) * ((wm_x2 testPage - wm_x1 testPage) / ((2 : Nat) : ℚ)),
             wm_y2 testPage⟩,
            sampleColor constImg 1, sampleColor constImg 1⟩ := by
  obtain ⟨h1, h2⟩ := C4_per_column_rects testPage constImg 2 rfl rfl
    (by norm_num)
  exact ⟨h1, h2 1 (by norm_num)⟩

/-- C5 counterexample: on the concrete 100-unit-wide `narrowPage`
(narrower than 115 units), drawing is NOT skipped — the code draws one
rectangle per rasterized column (220 of them) just as on any other page,
refuting the claim that drawing is skipped for such pages. -/
theorem C5_counterexample :
    narrowPage.width < 115 ∧
    (process_page narrowPage).map (fun op => op.drawn.length) = some 220 :=
  ⟨show (100 : ℚ) < 115 by norm_num, rfl⟩

/-- C5 (amended): a page narrower than 115 units is handled by the code
like any other page: provided the external rasterizer succeeds on the
sampling strip, processing the page succeeds (no crash in the code
itself), drawing is performed — one rectangle per rasterized column, with
the watermark rectangle extending left of the page edge — not skipped,
and the page is counted. -/
theorem C5_narrow_page_processed (p : Page) (img : Image)
    (_hw : p.width < 115)
    (hr : p.render (sample_rect p) (2, 2) = some img) :
    process_page p =
      some ⟨p.width, p.height, (List.range img.width).map (colCmd p img)⟩ ∧
    (process_page p).map (fun op => op.drawn.length) = some img.width := by
  unfold process_page process_page_at
  rw [hr]
  exact ⟨rfl, by simp⟩

/-- C5 witness: the amended statement on the concrete `narrowPage`. -/
theorem C5_witness :
    process_page narrowPage =
      some ⟨narrowPage.width, narrowPage.height,
            (List.range narrowImg.width).map (colCmd narrowPage narrowImg)⟩ ∧
    (process_page narrowPage).map (fun op => op.drawn.length) =
      some narrowImg.width :=
  C5_narrow_page_processed narrowPage narrowImg
    (show (100 : ℚ) < 115 by norm_num) rfl

/-- C6: if `remove_watermark` fails (open failure or any page's
rasterization failure) the error propagates (`none` result) and nothing is
ever written at `output_path`; the trace always consists of the input open
followed — only on full success — by a single write of the output and the
close, so no partial output ever exists. -/
theorem C6_atomic_output (fs : String → Option Document) (i o : String) :
    ((remove_watermark fs i o).1 = none →
       FSOp.write o ∉ (remove_watermark fs i o).2) ∧
    (remove_watermark fs i o).2 =
      FSOp.read i ::
        (if ((remove_watermark fs i o).1).isSome
         then [FSOp.write o, FSOp.close] else []) ∧
    (fs i = none → (remove_watermark fs i o).1 = none) ∧
    (∀ doc, fs i = some doc → process_pages doc.pages = none →
       (remove_watermark fs i o).1 = none) := by
  have htrace : (remove_watermark fs i o).2 =
      FSOp.read i ::
        (if ((remove_watermark fs i o).1).isSome
         then [FSOp.write o, FSOp.close] else []) := by
    unfold remove_watermark
    cases fs i with
    | none => rfl
    | some doc =>
        cases hps : process_pages doc.pages with
        | none => simp [hps]
        | some pr =>
            obtain ⟨ops, n⟩ := pr
            simp [hps]
  refine ⟨fun hnone => ?_, htrace, fun hfs => ?_, fun doc hfs hp => ?_⟩
  · rw [htrace, hnone]
    simp
  · unfold remove_watermark
    simp [hfs]
  · unfold remove_watermark
    simp [hfs, hp]

/-- C6 witness: on the concrete failing document (`failFS`), the run
returns an error and no write of the output path appears in the trace. -/
theorem C6_witness :
    (remove_watermark failFS "in.pdf" "out.pdf").1 = none ∧
    FSOp.write "out.pdf" ∉ (remove_watermark failFS "in.pdf" "out.pdf").2 := by
  obtain ⟨h1, _, _, h4⟩ := C6_atomic_output failFS "in.pdf" "out.pdf"
  have hnone := h4 ⟨[failPage]⟩ rfl rfl
  exact ⟨hnone, h1 hnone⟩

/-- C7: `remove_watermark` is deterministic — equal inputs (file system and
paths) give equal results and traces, and equal pages give equal per-page
processing (same sampled colours and sub-rectangles). -/
theorem C7_deterministic (fs fs' : String → Option Document)
    (i i' o o' : String) (hfs : fs = fs') (hi : i = i') (ho : o = o') :
    remove_watermark fs i o = remove_watermark fs' i' o' ∧
    ∀ p q : Page, p = q → process_page p = process_page q := by
  subst hfs
  subst hi
  subst ho
  exact ⟨rfl, fun p q h => h ▸ rfl⟩

/-- C7 witness: two runs on the concrete `testFS` input agree. -/
theorem C7_witness :
    remove_watermark testFS "in.pdf" "out.pdf" =
      remove_watermark testFS "in.pdf" "out.pdf" :=
  (C7_deterministic testFS testFS "in.pdf" "in.pdf" "out.pdf" "out.pdf"
    rfl rfl rfl).1

/-- C8 counterexample: on the concrete `failFS` input (whose only page
fails to rasterize) the error propagates to the caller, yet the trace
contains no close of the document handle — the code has no
`try`/`finally`, so the handle is NOT released on this error exit path,
refuting the claim. -/
theorem C8_counterexample :
    (remove_watermark failFS "in.pdf" "out.pdf").1 = none ∧
    FSOp.close ∉ (remove_watermark failFS "in.pdf" "out.pdf").2 := by
  refine ⟨rfl, ?_⟩
  have h : (remove_watermark failFS "in.pdf" "out.pdf").2 =
      [FSOp.read "in.pdf"] := rfl
  rw [h]
  simp

/-- C8 (amended): the source document handle is closed exactly on the
successful exit path (after the save); on error exit paths (open failure
or rasterization failure) no explicit release happens before the error
propagates to the caller. -/
theorem C8_close_only_on_success (fs : String → Option Document)
    (i o : String) :
    FSOp.close ∈ (remove_watermark fs i o).2 ↔
      ((remove_watermark fs i o).1).isSome = true := by
  unfold remove_watermark
  cases fs i with
  | none => simp
  | some doc =>
      cases hps : process_pages doc.pages with
      | none => simp [hps]
      | some pr =>
          obtain ⟨ops, n⟩ := pr
          simp [hps]

/-- C8 amended-claim witness: on the concrete successful `testFS` run the
close appears in the trace; the equivalence is instantiated concretely. -/
theorem C8_witness :
    FSOp.close ∈ (remove_watermark testFS "in.pdf" "out.pdf").2 ↔
      ((remove_watermark testFS "in.pdf" "out.pdf").1).isSome = true :=
  C8_close_only_on_success testFS "in.pdf" "out.pdf"

/-- C10: the only path `remove_watermark` ever writes is `output_path`;
in particular, whenever `output_path` differs from `input_path`, the input
file is never written. -/
theorem C10_writes_only_output (fs : String → Option Document)
    (i o p : String)
    (h : FSOp.write p ∈ (remove_watermark fs i o).2) : p = o := by
  unfold remove_watermark at h
  cases hfs : fs i with
  | none => rw [hfs] at h; simp at h
  | some doc =>
      rw [hfs] at h
      cases hps : process_pages doc.pages with
      | none => simp [hps] at h
      | some pr =>
          obtain ⟨ops, n⟩ := pr
          simp [hps] at h
          exact h

/-- C10 witness: on the concrete successful `testFS` run, the write in the
trace indeed targets the output path. -/
theorem C10_witness :
    FSOp.write "out.pdf" ∈ (remove_watermark testFS "in.pdf" "out.pdf").2 ∧
    "out.pdf" = "out.pdf" := by
  have hmem : FSOp.write "out.pdf" ∈
      (remove_watermark testFS "in.pdf" "out.pdf").2 := by
    have h : (remove_watermark testFS "in.pdf" "out.pdf").2 =
        [FSOp.read "in.pdf", FSOp.write "out.pdf", FSOp.close] := rfl
    rw [h]
    simp
  exact ⟨hmem, C10_writes_only_output testFS "in.pdf" "out.pdf" "out.pdf" hmem⟩
